import Mathlib

/-!
Verification of the benchmarking harness in `filecoin-proofs/examples`
(`drgporep-vanilla-disk.rs` and `encoding.rs`): a shallow embedding of the
measurement, parameter-assembly and reporting logic, with theorems settling
the specification claims about it.

Machine integers are modelled as `Nat` (with explicit `% 2^w` where Rust
truncates), `std::time::Duration` as a seconds/nanoseconds pair with the
exact integer arithmetic of the Rust standard library, and fallible external
calls as `Except`/`Option` values.
-/

namespace FilProofsBench

/-! ### `std::time::Duration`

Rust durations are a `u64` count of whole seconds plus a sub-second
nanosecond count below `10^9`.  Overflow of the 64-bit second counter
(which Rust turns into a panic) is not modelled; none of the claims
below depends on it. -/

def nanosPerSec : Nat := 1000000000

structure Duration where
  secs : Nat
  nanos : Nat
deriving DecidableEq

/-- Total nanosecond count of a duration. -/
def Duration.toNanos (d : Duration) : Nat := d.secs * nanosPerSec + d.nanos

/-- `Duration::new`: carries surplus nanoseconds into the second count. -/
def durationNew (s n : Nat) : Duration := ⟨s + n / nanosPerSec, n % nanosPerSec⟩

/-- `Duration::add` (`+=` in both benchmark loops): componentwise sum with carry. -/
def durAdd (a b : Duration) : Duration := durationNew (a.secs + b.secs) (a.nanos + b.nanos)

/-- `u32 * Duration` (`(1 << 30) * encoding_time` in `encoding.rs`):
multiplies the nanosecond part exactly, carrying into seconds. -/
def durMul (d : Duration) (k : Nat) : Duration := durationNew (d.secs * k) (d.nanos * k)

/-- The total function underlying `Duration::checked_div`: per the Rust
standard library, seconds and the remainder-carry nanoseconds are divided
separately, each with truncating integer division. -/
def durDivD (d : Duration) (r : Nat) : Duration :=
  ⟨d.secs / r, d.nanos / r + d.secs % r * nanosPerSec / r⟩

/-- `Duration / u32`: division by zero is a Rust panic, modelled as `none`. -/
def durDiv (d : Duration) (r : Nat) : Option Duration :=
  if r = 0 then none else some (durDivD d r)

/-- Running total of a list of elapsed durations, as accumulated by the
`total_proving += start.elapsed()` pattern. -/
def durSum (ds : List Duration) : Duration := ds.foldl durAdd ⟨0, 0⟩

theorem toNanos_durationNew (s n : Nat) :
    (durationNew s n).toNanos = s * nanosPerSec + n := by
  unfold durationNew Duration.toNanos
  simp only
  calc (s + n / nanosPerSec) * nanosPerSec + n % nanosPerSec
      = s * nanosPerSec + (nanosPerSec * (n / nanosPerSec) + n % nanosPerSec) := by ring
    _ = s * nanosPerSec + n := by rw [Nat.div_add_mod]

theorem toNanos_durAdd (a b : Duration) :
    (durAdd a b).toNanos = a.toNanos + b.toNanos := by
  unfold durAdd
  rw [toNanos_durationNew]
  unfold Duration.toNanos
  ring

theorem toNanos_durMul (d : Duration) (k : Nat) :
    (durMul d k).toNanos = d.toNanos * k := by
  unfold durMul
  rw [toNanos_durationNew]
  unfold Duration.toNanos
  ring

theorem toNanos_durSum_foldl (ds : List Duration) (init : Duration) :
    (ds.foldl durAdd init).toNanos = init.toNanos + (ds.map Duration.toNanos).sum := by
  induction ds generalizing init with
  | nil => simp
  | cons d ds ih =>
    simp only [List.foldl_cons, List.map_cons, List.sum_cons, ih, toNanos_durAdd]
    ring

theorem toNanos_durSum (ds : List Duration) :
    (durSum ds).toNanos = (ds.map Duration.toNanos).sum := by
  unfold durSum
  rw [toNanos_durSum_foldl]
  simp [Duration.toNanos]

/-- The Rust duration division never overshoots: the quotient times the
divisor is at most the dividend (in nanoseconds). -/
theorem durDivD_mul_le (d : Duration) (r : Nat) :
    (durDivD d r).toNanos * r ≤ d.toNanos := by
  unfold durDivD Duration.toNanos
  simp only
  have h1 : d.secs / r * r + d.secs % r = d.secs := by
    rw [Nat.mul_comm]; exact Nat.div_add_mod d.secs r
  have h2 : d.nanos / r * r ≤ d.nanos := Nat.div_mul_le_self d.nanos r
  have h3 : d.secs % r * nanosPerSec / r * r ≤ d.secs % r * nanosPerSec :=
    Nat.div_mul_le_self _ r
  calc (d.secs / r * nanosPerSec + (d.nanos / r + d.secs % r * nanosPerSec / r)) * r
      = d.secs / r * r * nanosPerSec
        + (d.nanos / r * r + d.secs % r * nanosPerSec / r * r) := by ring
    _ ≤ d.secs / r * r * nanosPerSec + (d.nanos + d.secs % r * nanosPerSec) :=
        Nat.add_le_add_left (Nat.add_le_add h2 h3) _
    _ = (d.secs / r * r + d.secs % r) * nanosPerSec + d.nanos := by ring
    _ = d.secs * nanosPerSec + d.nanos := by rw [h1]

/-- The Rust duration division undershoots by strictly less than two
nanoseconds times the divisor: each of the two internal truncating
divisions loses less than one unit. -/
theorem lt_durDivD_succ (d : Duration) (r : Nat) (hr : 0 < r) :
    d.toNanos < ((durDivD d r).toNanos + 2) * r := by
  unfold durDivD Duration.toNanos
  simp only
  have hx : ∀ x : Nat, x < x / r * r + r := by
    intro x
    calc x = r * (x / r) + x % r := (Nat.div_add_mod x r).symm
      _ < r * (x / r) + r := Nat.add_lt_add_left (Nat.mod_lt x hr) _
      _ = x / r * r + r := by rw [Nat.mul_comm]
  have h1 : d.secs / r * r + d.secs % r = d.secs := by
    rw [Nat.mul_comm]; exact Nat.div_add_mod d.secs r
  have h2 : d.nanos < d.nanos / r * r + r := hx d.nanos
  have h3 : d.secs % r * nanosPerSec < d.secs % r * nanosPerSec / r * r + r :=
    hx (d.secs % r * nanosPerSec)
  calc d.secs * nanosPerSec + d.nanos
      = (d.secs / r * r + d.secs % r) * nanosPerSec + d.nanos := by rw [h1]
    _ = d.secs / r * r * nanosPerSec + (d.secs % r * nanosPerSec + d.nanos) := by ring
    _ < d.secs / r * r * nanosPerSec
        + (d.secs % r * nanosPerSec / r * r + r + (d.nanos / r * r + r)) := by
        exact Nat.add_lt_add_left (Nat.add_lt_add h3 h2) _
    _ = (d.secs / r * nanosPerSec + (d.nanos / r + d.secs % r * nanosPerSec / r) + 2) * r := by
        ring

/-! ### Statistics reporting (`drgporep-vanilla-disk.rs`, lines 111-130)

The reported mean times are `total / samples` (Rust duration division)
rendered as `f64::from(subsec_nanos) / 1e9 + secs as f64`.  The rendering
is modelled at exact rational level; the claim about it is stated "to
within floating-point rounding", which this licenses. -/

/-- Exact fractional-second value of a duration (what the `f64`
rendering approximates). -/
def ratSec (d : Duration) : ℚ := (d.toNanos : ℚ) / 1000000000

/-- The reported mean of a list of per-trial durations over `r` samples:
duration division first, then the `nanos / 1e9 + secs` rendering, exactly
mirroring lines 119-125 of `drgporep-vanilla-disk.rs`. -/
def avgSeconds (ds : List Duration) (r : Nat) : ℚ :=
  let avg := durDivD (durSum ds) r
  (avg.nanos : ℚ) / 1000000000 + (avg.secs : ℚ)

theorem avgSeconds_eq_ratSec (ds : List Duration) (r : Nat) :
    avgSeconds ds r = ((durDivD (durSum ds) r).toNanos : ℚ) / 1000000000 := by
  unfold avgSeconds Duration.toNanos nanosPerSec
  push_cast
  field_simp
  ring

theorem ratSec_sum (ds : List Duration) :
    (ds.map ratSec).sum = ((ds.map Duration.toNanos).sum : ℚ) / 1000000000 := by
  induction ds with
  | nil => simp
  | cons d ds ih =>
    simp only [List.map_cons, List.sum_cons, ih, ratSec]
    push_cast
    field_simp

/-- Core numeric fact behind the reported means: if `A*r ≤ T < (A+2)*r`
(the quotient bracketing of the Rust duration division), the rendered
quotient is within `2/10^9` of the exact mean of the totals. -/
theorem ratAvg_close (A T r : Nat) (hr : 0 < r) (h1 : A * r ≤ T) (h2 : T < (A + 2) * r) :
    |(A : ℚ) / 1000000000 - (T : ℚ) / 1000000000 / r| < 2 / 1000000000 := by
  have hrq : (0 : ℚ) < r := by exact_mod_cast hr
  have h1q : (A : ℚ) * r ≤ T := by exact_mod_cast h1
  have h2q : (T : ℚ) < ((A : ℚ) + 2) * r := by exact_mod_cast h2
  have hP : (0 : ℚ) < 1000000000 := by norm_num
  have key : (A : ℚ) / 1000000000 - (T : ℚ) / 1000000000 / r
      = ((A : ℚ) * r - T) / (1000000000 * r) := by
    field_simp
    ring
  have hpr : (0 : ℚ) < 1000000000 * r := mul_pos hP hrq
  rw [key, abs_div, abs_of_pos hpr, div_lt_div_iff₀ hpr hP]
  have habs : |(A : ℚ) * r - T| < 2 * r := by
    rw [abs_lt]
    constructor
    · linarith
    · linarith
  nlinarith [habs, hP]

/-- `serialized_proofs`: the fold at lines 113-116 concatenating every
proof's serialized bytes.  Proofs are modelled by their serialized byte
string (the only attribute the statistics consume). -/
structure Proof where
  bytes : List Nat
deriving DecidableEq

def serialized_proofs (ps : List Proof) : List Nat :=
  ps.foldl (fun acc p => acc ++ p.bytes) []

/-- `samples`, fixed at 30 in `do_the_work` (line 92). -/
def samples : Nat := 30

/-- `avg_proof_size` (line 117): total serialized length, integer-divided
by the sample count. -/
def avg_proof_size (ps : List Proof) : Nat := (serialized_proofs ps).length / samples

theorem serialized_foldl_length (ps : List Proof) (acc : List Nat) :
    (ps.foldl (fun a p => a ++ p.bytes) acc).length
      = acc.length + (ps.map fun p => p.bytes.length).sum := by
  induction ps generalizing acc with
  | nil => simp
  | cons p ps ih =>
    simp only [List.foldl_cons, List.map_cons, List.sum_cons, ih, List.length_append]
    ring

theorem serialized_proofs_length (ps : List Proof) :
    (serialized_proofs ps).length = (ps.map fun p => p.bytes.length).sum := by
  unfold serialized_proofs
  rw [serialized_foldl_length]
  simp

/-! ### Deterministic generator stream and buffer generation

Modelled from the spec: the pseudo-random stream (`rand::XorShiftRng`,
an external crate not under `src/`) is, per the spec, a "fixed-seed
pseudo-random stream" so that "two runs with identical parameters produce
byte-identical input data"; it is modelled here as the xorshift128
algorithm over explicit 32-bit words, seeded with the four words
hard-coded at `drgporep-vanilla-disk.rs` line 27 / `encoding.rs` line 55. -/

structure XorShiftRng where
  x : Nat
  y : Nat
  z : Nat
  w : Nat
deriving DecidableEq

def XorShiftRng.fromSeed (s0 s1 s2 s3 : Nat) : XorShiftRng := ⟨s0, s1, s2, s3⟩

def XorShiftRng.nextU32 (r : XorShiftRng) : Nat × XorShiftRng :=
  let t := r.x ^^^ ((r.x <<< 11) % 2 ^ 32)
  let w2 := (r.w ^^^ (r.w >>> 19)) ^^^ (t ^^^ (t >>> 8))
  (w2, ⟨r.y, r.z, r.w, w2⟩)

def XorShiftRng.nextU64 (r : XorShiftRng) : Nat × XorShiftRng :=
  let (hi, r1) := r.nextU32
  let (lo, r2) := r1.nextU32
  (hi * 2 ^ 32 + lo, r2)

/-- Modelled from the spec: the BLS12-381 scalar-field modulus of the
external `paired` crate's `Fr`; field elements are "a single field
element drawn from the deterministic generator stream" (spec §3). -/
def frModulus : Nat :=
  0x73eda753299d7d483339d80809a1d80553bda402fffe5bfeffffffff00000001

/-- Modelled from the spec: drawing one pseudo-random scalar (`rng.gen()`
on `Fr`, external crate): four 64-bit draws assembled little-endian and
reduced canonically below the modulus.  Any deterministic draw function
satisfies the claims proved below. -/
def XorShiftRng.genFr (r : XorShiftRng) : Nat × XorShiftRng :=
  let (a, r1) := r.nextU64
  let (b, r2) := r1.nextU64
  let (c, r3) := r2.nextU64
  let (d, r4) := r3.nextU64
  ((a + b * 2 ^ 64 + c * 2 ^ 128 + d * 2 ^ 192) % frModulus, r4)

/-- Little-endian byte string of fixed width `k`. -/
def toLEBytes : Nat → Nat → List Nat
  | 0, _ => []
  | k + 1, v => v % 256 :: toLEBytes k (v / 256)

theorem length_toLEBytes (k v : Nat) : (toLEBytes k v).length = k := by
  induction k generalizing v with
  | zero => rfl
  | succ k ih => simp [toLEBytes, ih]

/-- Modelled from the spec: `fr32::fr_into_bytes` (storage-proofs code
not under `src/`), "a field-element serialization routine converting a
pseudo-random scalar into its canonical fixed-width byte representation
(32 bytes per element)" (spec §6); modelled little-endian. -/
def fr_into_bytes (v : Nat) : List Nat := toLEBytes 32 v

theorem length_fr_into_bytes (v : Nat) : (fr_into_bytes v).length = 32 :=
  length_toLEBytes 32 v

/-- The fixed seed `[0x3dbe6259, 0x8d313d76, 0x3237db17, 0xe5bc0654]`
appearing in both benchmarks, both for buffer generation and for
replica-identity derivation. -/
def fixedSeedRng : XorShiftRng :=
  XorShiftRng.fromSeed 0x3dbe6259 0x8d313d76 0x3237db17 0xe5bc0654

/-- Serialize `n` successive field-element draws of a stream. -/
def genFrBytesAux : Nat → XorShiftRng → List Nat
  | 0, _ => []
  | n + 1, r => fr_into_bytes (r.genFr).1 ++ genFrBytesAux n (r.genFr).2

/-- `file_backed_mmap_from_random_bytes` (`drgporep-vanilla-disk.rs`
lines 26-37): a fresh stream from the fixed seed, `n` field elements
serialized in order.  The file-backed mmap storage is transparent to the
byte contents and is not modelled. -/
def file_backed_mmap_from_random_bytes (n : Nat) : List Nat :=
  genFrBytesAux n fixedSeedRng

/-- `file_backed_mmap_from_random_bytes` (`encoding.rs` lines 54-65):
the identical function repeated in the second benchmark source file. -/
def file_backed_mmap_from_random_bytes_enc (n : Nat) : List Nat :=
  genFrBytesAux n fixedSeedRng

/-- `replica_id` of `do_the_work` (`drgporep-vanilla-disk.rs` line 53):
the first field-element draw from the fixed-seed stream created at
line 40 (no draw happens before it). -/
def replica_id : Nat := (fixedSeedRng.genFr).1

/-- Modelled from the spec: `HybridDomain` (storage-proofs code not under
`src/`), "a tagged value selecting between two domain representations"
(spec §3): an alpha (plain/vanilla) variant and a beta (hybrid) variant. -/
inductive HybridDomain (α β : Type) where
  | Alpha : α → HybridDomain α β
  | Beta : β → HybridDomain α β
deriving DecidableEq

def HybridDomain.isAlpha {α β : Type} : HybridDomain α β → Bool
  | .Alpha _ => true
  | .Beta _ => false

/-- The field element drawn for the encoding benchmark's identity
(`encoding.rs` line 93): the first draw from the fixed-seed stream
created at line 81. -/
def encoding_replica_id_fr : Nat := (fixedSeedRng.genFr).1

/-- `replica_id` of `do_the_work` (`encoding.rs` line 93): an
alpha-variant (plain domain) value, per the comment at line 92 that a
zero beta height makes replica ids alpha domain elements. -/
def encoding_replica_id : HybridDomain Nat Nat :=
  HybridDomain.Alpha encoding_replica_id_fr

/-! ### Public/private inputs and the sampling loop
(`drgporep-vanilla-disk.rs` lines 39-109) -/

/-- `Tau`: the public commitment pair of replication, per spec §3 the
"(original-data tree root, replica tree root)"; roots are opaque values. -/
structure Tau where
  comm_d : Nat
  comm_r : Nat
deriving DecidableEq

/-- `PublicInputs` as assembled at lines 80-84: replica identity,
challenge list, and `tau`. -/
structure PublicInputs where
  replica_id : Option Nat
  challenges : List Nat
  tau : Option Tau
deriving DecidableEq

/-- `PrivateInputs` as assembled at lines 86-89: borrowed references to
the two authentication trees, modelled as opaque handles. -/
structure PrivateInputs where
  tree_d : Nat
  tree_r : Nat
deriving DecidableEq

/-- `let challenges = vec![2; challenge_count]` (line 41): the constant
challenge index 2 repeated. -/
def challengesVec (challenge_count : Nat) : List Nat :=
  List.replicate challenge_count 2

/-- The `PublicInputs` record built once before the sampling loop
(lines 80-84). -/
def mkPublicInputs (rid : Nat) (challenge_count : Nat) (tau : Tau) : PublicInputs :=
  { replica_id := some rid, challenges := challengesVec challenge_count, tau := some tau }

/-- The `PrivateInputs` record built once before the sampling loop
(lines 86-89). -/
def mkPrivateInputs (td tr : Nat) : PrivateInputs := ⟨td, tr⟩

/-- Observable events of one pass through the loop body: a proving call,
a verifying call, and the push of the produced proof. -/
inductive LoopEvent where
  | proveCall : PublicInputs → PrivateInputs → LoopEvent
  | verifyCall : PublicInputs → Proof → LoopEvent
  | pushProof : Proof → LoopEvent
deriving DecidableEq

/-- The sampling loop body iterated `k` times (lines 99-109).  The
external calls are parameters: `pv` is `DrgPoRep::prove` (fallible, per
spec §6), `vf` is `DrgPoRep::verify` returning `bool/fails` (spec §6).
`.expect(..)` on an error return is a panic, modelled as `none`; the
`Ok` boolean of `verify` is discarded by the source, exactly as the
`;`-terminated expression statement at line 106 discards it. -/
def samplingLoopAux (pv : PublicInputs → PrivateInputs → Except String Proof)
    (vf : PublicInputs → Proof → Except String Bool)
    (pub : PublicInputs) (priv : PrivateInputs) :
    Nat → Option (List Proof × List LoopEvent)
  | 0 => some ([], [])
  | k + 1 =>
    match pv pub priv with
    | Except.error _ => none
    | Except.ok prf =>
      match vf pub prf with
      | Except.error _ => none
      | Except.ok _ =>
        match samplingLoopAux pv vf pub priv k with
        | none => none
        | some (ps, evs) =>
          some (prf :: ps,
            LoopEvent.proveCall pub priv :: LoopEvent.verifyCall pub prf ::
              LoopEvent.pushProof prf :: evs)

/-- The sampling loop with its fixed trial count of 30 (`samples`). -/
def samplingLoop (pv : PublicInputs → PrivateInputs → Except String Proof)
    (vf : PublicInputs → Proof → Except String Bool)
    (pub : PublicInputs) (priv : PrivateInputs) : Option (List Proof × List LoopEvent) :=
  samplingLoopAux pv vf pub priv samples

theorem samplingLoopAux_all_ok (pv : PublicInputs → PrivateInputs → Except String Proof)
    (vf : PublicInputs → Proof → Except String Bool)
    (pub : PublicInputs) (priv : PrivateInputs) (prf : Proof) (b : Bool)
    (hp : pv pub priv = Except.ok prf) (hv : vf pub prf = Except.ok b) (k : Nat) :
    samplingLoopAux pv vf pub priv k =
      some (List.replicate k prf,
        (List.replicate k [LoopEvent.proveCall pub priv, LoopEvent.verifyCall pub prf,
          LoopEvent.pushProof prf]).flatten) := by
  induction k with
  | zero => simp [samplingLoopAux]
  | succ k ih =>
    rw [samplingLoopAux, hp]
    dsimp only
    rw [hv]
    dsimp only
    rw [ih]
    simp [List.replicate_succ]

theorem samplingLoopAux_prove_error (pv : PublicInputs → PrivateInputs → Except String Proof)
    (vf : PublicInputs → Proof → Except String Bool)
    (pub : PublicInputs) (priv : PrivateInputs) (e : String)
    (hp : pv pub priv = Except.error e) (k : Nat) (hk : 0 < k) :
    samplingLoopAux pv vf pub priv k = none := by
  obtain ⟨m, rfl⟩ : ∃ m, k = m + 1 := ⟨k - 1, by omega⟩
  rw [samplingLoopAux, hp]

theorem samplingLoopAux_verify_error (pv : PublicInputs → PrivateInputs → Except String Proof)
    (vf : PublicInputs → Proof → Except String Bool)
    (pub : PublicInputs) (priv : PrivateInputs) (prf : Proof) (e : String)
    (hp : pv pub priv = Except.ok prf) (hv : vf pub prf = Except.error e)
    (k : Nat) (hk : 0 < k) :
    samplingLoopAux pv vf pub priv k = none := by
  obtain ⟨m, rfl⟩ : ∃ m, k = m + 1 := ⟨k - 1, by omega⟩
  rw [samplingLoopAux, hp]
  dsimp only
  rw [hv]

/-! ### Hasher dispatch in `main` (`drgporep-vanilla-disk.rs` lines 133-186) -/

/-- The work stages of a full-cycle run, in source order: buffer
generation (line 55), setup (line 71), replication (line 77), then the
sampled proving and verifying (lines 99-109). -/
inductive Stage where
  | bufferGen
  | setupStage
  | replicateStage
  | proveStage
  | verifyStage
deriving DecidableEq

def do_the_work_stages : List Stage :=
  [Stage.bufferGen, Stage.setupStage, Stage.replicateStage, Stage.proveStage,
    Stage.verifyStage]

/-- The hasher dispatch of `main` (lines 174-185): the three named
hashers run `do_the_work`; anything else panics with a configuration
error before any work begins. -/
def benchMain (hasher : String) : Except String (List Stage) :=
  if hasher = "pedersen" then Except.ok do_the_work_stages
  else if hasher = "sha256" then Except.ok do_the_work_stages
  else if hasher = "blake2s" then Except.ok do_the_work_stages
  else Except.error ("invalid hasher: " ++ hasher)

/-! ### Encoding benchmark parameter assembly (`encoding.rs` lines 74-127) -/

/-- `DrgParams` as filled at `encoding.rs` lines 96-101; the unpredictable
`new_seed()` value is an input. -/
structure DrgParams where
  nodes : Nat
  degree : Nat
  expansion_degree : Nat
  seed : Nat
deriving DecidableEq

/-- Modelled from the spec: `LayerChallenges::new_fixed` (storage-proofs
code not under `src/`), the "fixed per-layer challenge policy" of spec
§4.2: a layer count and a constant challenge count per layer. -/
structure LayerChallenges where
  layers : Nat
  count : Nat
deriving DecidableEq

def LayerChallenges.new_fixed (layers count : Nat) : LayerChallenges := ⟨layers, count⟩

/-- `layered_drgporep::SetupParams` as assembled at lines 95-104. -/
structure LayeredSetupParams where
  drg : DrgParams
  layer_challenges : LayerChallenges
  beta_heights : List Nat
deriving DecidableEq

/-- `N_LAYERS` (`encoding.rs` line 78). -/
def N_LAYERS : Nat := 1

/-- `BETA_HEIGHTS = [0; N_LAYERS]` (`encoding.rs` line 79). -/
def BETA_HEIGHTS : List Nat := List.replicate N_LAYERS 0

/-- Deterministic observables of `do_the_work` in `encoding.rs`
(lines 74-127): the setup parameters handed to `setup`, the replica
identity and the generated data buffer. -/
structure EncodingRun where
  sp : LayeredSetupParams
  rid : HybridDomain Nat Nat
  data : List Nat
deriving DecidableEq

def do_the_work_encoding (data_size m expansion_degree graph_seed : Nat) : EncodingRun :=
  let nodes := data_size / 32
  { sp :=
      { drg :=
          { nodes := nodes, degree := m, expansion_degree := expansion_degree,
            seed := graph_seed }
        layer_challenges := LayerChallenges.new_fixed N_LAYERS 1
        beta_heights := BETA_HEIGHTS }
    rid := encoding_replica_id
    data := file_backed_mmap_from_random_bytes_enc nodes }

/-- `main` of `encoding.rs` (lines 129-169): reads `size` (KB, scaled by
1024), `m` and the expansion degree, then calls `do_the_work`.  The
`layers` argument is declared (default 10) but its value is never read. -/
def encoding_main (size_kb m expansion_degree _layers graph_seed : Nat) : EncodingRun :=
  do_the_work_encoding (size_kb * 1024) m expansion_degree graph_seed

/-! ### Encoding rate reporting (`encoding.rs` lines 111-126) -/

/-- `as u32`: Rust's truncating integer cast. -/
def u32cast (n : Nat) : Nat := n % 2 ^ 32

/-- `encoding_time / data_size as u32` (line 122). -/
def encoding_time_per_byte (t : Duration) (data_size : Nat) : Option Duration :=
  durDiv t (u32cast data_size)

/-- `(1 << 30) * encoding_time / data_size as u32` (line 125). -/
def encoding_time_per_gib (t : Duration) (data_size : Nat) : Option Duration :=
  durDiv (durMul t (2 ^ 30)) (u32cast data_size)

/-! ### Claim theorems -/

/-- C2: after the full-cycle sampling loop with 30 trials, the reported
mean proving time (duration division of the running total by the sample
count, rendered as whole seconds plus sub-second nanoseconds over 1e9)
equals the exact mean of the per-trial proving durations to within
`2/10^9` seconds (the truncation of the nanosecond-level division), the
reported mean verifying time likewise, and the reported average proof
size equals the total serialized byte length of the collected proofs
integer-divided by the sample count. -/
theorem drg_full_cycle_reported_means (pds vds : List Duration) (ps : List Proof)
    (_hp : pds.length = 30) (_hv : vds.length = 30) (_hps : ps.length = 30) :
    |avgSeconds pds 30 - (pds.map ratSec).sum / 30| < 2 / 1000000000
    ∧ |avgSeconds vds 30 - (vds.map ratSec).sum / 30| < 2 / 1000000000
    ∧ avg_proof_size ps = (ps.map fun p => p.bytes.length).sum / 30 := by
  have key : ∀ ds : List Duration,
      |avgSeconds ds 30 - (ds.map ratSec).sum / 30| < 2 / 1000000000 := by
    intro ds
    rw [avgSeconds_eq_ratSec, ratSec_sum]
    have h1 := durDivD_mul_le (durSum ds) 30
    have h2 := lt_durDivD_succ (durSum ds) 30 (by norm_num)
    rw [toNanos_durSum] at h1 h2
    have hc := ratAvg_close ((durDivD (durSum ds) 30).toNanos)
      ((ds.map Duration.toNanos).sum) 30 (by norm_num) h1 h2
    exact_mod_cast hc
  refine ⟨key pds, key vds, ?_⟩
  show (serialized_proofs ps).length / samples = _
  rw [serialized_proofs_length]
  rfl

theorem drg_full_cycle_reported_means_witness :
    |avgSeconds (List.replicate 30 ⟨0, 1⟩) 30
        - ((List.replicate 30 (⟨0, 1⟩ : Duration)).map ratSec).sum / 30| < 2 / 1000000000
    ∧ |avgSeconds (List.replicate 30 ⟨1, 0⟩) 30
        - ((List.replicate 30 (⟨1, 0⟩ : Duration)).map ratSec).sum / 30| < 2 / 1000000000
    ∧ avg_proof_size (List.replicate 30 ⟨[7, 7, 7]⟩)
        = ((List.replicate 30 (⟨[7, 7, 7]⟩ : Proof)).map fun p => p.bytes.length).sum / 30 :=
  drg_full_cycle_reported_means _ _ _ (by simp) (by simp) (by simp)

/-- C3 (amended): the sampling loop always runs exactly 30 sequential
trials; in each trial a single proving call on the fixed inputs precedes
a single verifying call on that trial's proof, which is then appended to
the ordered collection.  A proving or verifying call that returns an
error aborts the run (no statistics); a verifying call that completes
returning `false` is discarded by the source, so it does not abort. -/
theorem drg_sampling_loop_structure
    (pv : PublicInputs → PrivateInputs → Except String Proof)
    (vf : PublicInputs → Proof → Except String Bool)
    (pub : PublicInputs) (priv : PrivateInputs) :
    (∀ prf b, pv pub priv = Except.ok prf → vf pub prf = Except.ok b →
      samplingLoop pv vf pub priv =
        some (List.replicate 30 prf,
          (List.replicate 30 [LoopEvent.proveCall pub priv, LoopEvent.verifyCall pub prf,
            LoopEvent.pushProof prf]).flatten))
    ∧ (∀ e, pv pub priv = Except.error e → samplingLoop pv vf pub priv = none)
    ∧ (∀ prf e, pv pub priv = Except.ok prf → vf pub prf = Except.error e →
        samplingLoop pv vf pub priv = none) := by
  refine ⟨fun prf b hp hv => ?_, fun e hp => ?_, fun prf e hp hv => ?_⟩
  · exact samplingLoopAux_all_ok pv vf pub priv prf b hp hv samples
  · exact samplingLoopAux_prove_error pv vf pub priv e hp samples (by norm_num [samples])
  · exact samplingLoopAux_verify_error pv vf pub priv prf e hp hv samples
      (by norm_num [samples])

def pub0 : PublicInputs := mkPublicInputs 0 1 ⟨0, 0⟩

def priv0 : PrivateInputs := mkPrivateInputs 0 0

def proof0 : Proof := ⟨[1, 2, 3]⟩

def prove0 : PublicInputs → PrivateInputs → Except String Proof :=
  fun _ _ => Except.ok proof0

def verifyTrue : PublicInputs → Proof → Except String Bool :=
  fun _ _ => Except.ok true

def verifyFalse : PublicInputs → Proof → Except String Bool :=
  fun _ _ => Except.ok false

theorem drg_sampling_loop_structure_witness :
    samplingLoop prove0 verifyTrue pub0 priv0 =
      some (List.replicate 30 proof0,
        (List.replicate 30 [LoopEvent.proveCall pub0 priv0, LoopEvent.verifyCall pub0 proof0,
          LoopEvent.pushProof proof0]).flatten) :=
  (drg_sampling_loop_structure prove0 verifyTrue pub0 priv0).1 proof0 true rfl rfl

/-- C3 counterexample: with a verifier that completes every call
returning `false` (a sampled proof failing verification), the loop still
finishes all 30 trials and the statistics stage is reached — the run
does not abort, contradicting the claim as stated. -/
theorem drg_sampling_loop_verify_false_no_abort :
    verifyFalse pub0 proof0 = Except.ok false
    ∧ (samplingLoop prove0 verifyFalse pub0 priv0).isSome = true
    ∧ avg_proof_size (List.replicate 30 proof0) = 3 := by
  refine ⟨rfl, ?_, by decide⟩
  rw [samplingLoop, samplingLoopAux_all_ok prove0 verifyFalse pub0 priv0 proof0 false rfl rfl]
  rfl

def drgRunOutputs (n : Nat) : List Nat × Nat :=
  (file_backed_mmap_from_random_bytes n, replica_id)

def encodingRunOutputs (n : Nat) : List Nat × HybridDomain Nat Nat :=
  (file_backed_mmap_from_random_bytes_enc n, encoding_replica_id)

/-- C4: two runs with identical parameters produce byte-identical
generated buffers and equal replica identities, in both benchmarks:
buffer generation and identity derivation are deterministic functions of
the parameters, both drawing from a stream initialized with the same
fixed seed; the two source files' generator functions moreover agree. -/
theorem two_run_buffer_and_identity_determinism (n1 n2 : Nat) (hn : n1 = n2) :
    drgRunOutputs n1 = drgRunOutputs n2
    ∧ encodingRunOutputs n1 = encodingRunOutputs n2
    ∧ (drgRunOutputs n1).1 = (encodingRunOutputs n2).1 := by
  subst hn
  exact ⟨rfl, rfl, rfl⟩

theorem two_run_buffer_and_identity_determinism_witness :
    drgRunOutputs 32 = drgRunOutputs 32
    ∧ encodingRunOutputs 32 = encodingRunOutputs 32
    ∧ (drgRunOutputs 32).1 = (encodingRunOutputs 32).1 :=
  two_run_buffer_and_identity_determinism 32 32 rfl

/-- C5 (amended): the reported per-byte rate is the elapsed encoding
time divided (Rust duration division, truncating at nanosecond level) by
the byte count truncated to 32 bits, and the reported per-gibibyte rate
is the elapsed time scaled by `2^30` then divided likewise; each
quotient times the byte count brackets the (scaled) elapsed time to
within two nanoseconds per byte.  The per-gibibyte rate is not in
general the per-byte rate multiplied by `2^30` (see the counterexample). -/
theorem encoding_rate_reports (t : Duration) (data_size : Nat)
    (hd : 0 < u32cast data_size) :
    encoding_time_per_byte t data_size = some (durDivD t (u32cast data_size))
    ∧ encoding_time_per_gib t data_size
        = some (durDivD (durMul t (2 ^ 30)) (u32cast data_size))
    ∧ (durDivD t (u32cast data_size)).toNanos * u32cast data_size ≤ t.toNanos
    ∧ t.toNanos < ((durDivD t (u32cast data_size)).toNanos + 2) * u32cast data_size
    ∧ (durDivD (durMul t (2 ^ 30)) (u32cast data_size)).toNanos * u32cast data_size
        ≤ t.toNanos * 2 ^ 30
    ∧ t.toNanos * 2 ^ 30
        < ((durDivD (durMul t (2 ^ 30)) (u32cast data_size)).toNanos + 2)
            * u32cast data_size := by
  have hne : u32cast data_size ≠ 0 := Nat.pos_iff_ne_zero.mp hd
  refine ⟨?_, ?_, durDivD_mul_le _ _, lt_durDivD_succ _ _ hd, ?_, ?_⟩
  · rw [encoding_time_per_byte, durDiv, if_neg hne]
  · rw [encoding_time_per_gib, durDiv, if_neg hne]
  · have h := durDivD_mul_le (durMul t (2 ^ 30)) (u32cast data_size)
    rwa [toNanos_durMul] at h
  · have h := lt_durDivD_succ (durMul t (2 ^ 30)) (u32cast data_size) hd
    rwa [toNanos_durMul] at h

theorem encoding_rate_reports_witness :
    encoding_time_per_byte ⟨0, 1⟩ 1024 = some (durDivD ⟨0, 1⟩ (u32cast 1024))
    ∧ encoding_time_per_gib ⟨0, 1⟩ 1024
        = some (durDivD (durMul ⟨0, 1⟩ (2 ^ 30)) (u32cast 1024))
    ∧ (durDivD ⟨0, 1⟩ (u32cast 1024)).toNanos * u32cast 1024 ≤ Duration.toNanos ⟨0, 1⟩
    ∧ Duration.toNanos ⟨0, 1⟩ < ((durDivD ⟨0, 1⟩ (u32cast 1024)).toNanos + 2) * u32cast 1024
    ∧ (durDivD (durMul ⟨0, 1⟩ (2 ^ 30)) (u32cast 1024)).toNanos * u32cast 1024
        ≤ Duration.toNanos ⟨0, 1⟩ * 2 ^ 30
    ∧ Duration.toNanos ⟨0, 1⟩ * 2 ^ 30
        < ((durDivD (durMul ⟨0, 1⟩ (2 ^ 30)) (u32cast 1024)).toNanos + 2) * u32cast 1024 :=
  encoding_rate_reports ⟨0, 1⟩ 1024 (by decide)

/-- C5 counterexample: at elapsed time 1 ns and byte count 1024 the code
reports a per-gibibyte rate of 1048575 ns (`2^30` scaling first, then
division), while the per-byte rate multiplied by `2^30` is 0 ns — the
claimed equivalence of the two formulas is false. -/
theorem encoding_per_gib_not_scaled_per_byte :
    encoding_time_per_gib ⟨0, 1⟩ 1024 = some ⟨0, 1048575⟩
    ∧ (encoding_time_per_byte ⟨0, 1⟩ 1024).map (fun pb => durMul pb (2 ^ 30)) = some ⟨0, 0⟩
    ∧ (⟨0, 1048575⟩ : Duration) ≠ ⟨0, 0⟩ := by
  refine ⟨by decide, by decide, by decide⟩

/-- C6: for every challenge count, the challenge list inside the
`PublicInputs` record is the constant index 2 repeated that many times,
and the `PublicInputs`/`PrivateInputs` records built once before the
sampling loop are passed unchanged to every proving and verifying call
of all 30 samples. -/
theorem drg_public_inputs_fixed_across_samples (challenge_count rid : Nat) (tau : Tau)
    (td tr : Nat) (pv : PublicInputs → PrivateInputs → Except String Proof)
    (vf : PublicInputs → Proof → Except String Bool) (prf : Proof) (b : Bool)
    (hp : pv (mkPublicInputs rid challenge_count tau) (mkPrivateInputs td tr)
        = Except.ok prf)
    (hv : vf (mkPublicInputs rid challenge_count tau) prf = Except.ok b) :
    (mkPublicInputs rid challenge_count tau).challenges
        = List.replicate challenge_count 2
    ∧ ((mkPublicInputs rid challenge_count tau).challenges.all fun c => c == 2) = true
    ∧ samplingLoop pv vf (mkPublicInputs rid challenge_count tau) (mkPrivateInputs td tr)
        = some (List.replicate 30 prf,
            (List.replicate 30
              [LoopEvent.proveCall (mkPublicInputs rid challenge_count tau)
                  (mkPrivateInputs td tr),
                LoopEvent.verifyCall (mkPublicInputs rid challenge_count tau) prf,
                LoopEvent.pushProof prf]).flatten) := by
  refine ⟨rfl, ?_, samplingLoopAux_all_ok _ _ _ _ _ _ hp hv samples⟩
  rw [List.all_eq_true]
  intro c hc
  rw [List.eq_of_mem_replicate hc]
  rfl

theorem drg_public_inputs_fixed_across_samples_witness :
    (mkPublicInputs 0 1 ⟨0, 0⟩).challenges = List.replicate 1 2 :=
  (drg_public_inputs_fixed_across_samples 1 0 ⟨0, 0⟩ 0 0 prove0 verifyTrue proof0 true
    rfl rfl).1

/-- C7: for every hasher argument outside the three named hash functions
"pedersen", "sha256" and "blake2s", the full-cycle benchmark terminates
with a configuration error and no work stage (buffer generation, setup,
replication, proving, verification) is performed. -/
theorem unknown_hasher_config_error (hasher : String)
    (h1 : hasher ≠ "pedersen") (h2 : hasher ≠ "sha256") (h3 : hasher ≠ "blake2s") :
    benchMain hasher = Except.error ("invalid hasher: " ++ hasher)
    ∧ ∀ stages, benchMain hasher ≠ Except.ok stages := by
  have hb : benchMain hasher = Except.error ("invalid hasher: " ++ hasher) := by
    rw [benchMain, if_neg h1, if_neg h2, if_neg h3]
  refine ⟨hb, fun stages hok => ?_⟩
  rw [hb] at hok
  cases hok

theorem unknown_hasher_config_error_witness :
    benchMain "xyz" = Except.error ("invalid hasher: " ++ "xyz") :=
  (unknown_hasher_config_error "xyz" (by decide) (by decide) (by decide)).1

/-- C8: in the encoding benchmark, where the configured per-layer beta
heights are all fixed to zero, the replica identity handed to the
delay-encoding call is a plain (alpha-variant, non-hybrid) domain value
equal to the first draw of the fixed-seed generator stream. -/
theorem encoding_replica_id_alpha_variant :
    BETA_HEIGHTS = List.replicate N_LAYERS 0
    ∧ (BETA_HEIGHTS.all fun h => h == 0) = true
    ∧ encoding_replica_id = HybridDomain.Alpha encoding_replica_id_fr
    ∧ HybridDomain.isAlpha encoding_replica_id = true
    ∧ encoding_replica_id_fr = (fixedSeedRng.genFr).1 :=
  ⟨rfl, by decide, rfl, rfl, rfl⟩

/-- C9: in both benchmarks the replica identity is the first draw of the
fixed-seed stream, and the generated buffer's first element is the first
draw of an identically seeded stream, so for every positive node count
the first 32 buffer bytes are exactly the serialization of the replica
identity's field element. -/
theorem buffer_prefix_is_replica_id_serialization (n : Nat) (hn : 1 ≤ n) :
    (file_backed_mmap_from_random_bytes n).take 32 = fr_into_bytes replica_id
    ∧ (file_backed_mmap_from_random_bytes_enc n).take 32
        = fr_into_bytes encoding_replica_id_fr
    ∧ encoding_replica_id = HybridDomain.Alpha encoding_replica_id_fr := by
  obtain ⟨m, rfl⟩ : ∃ m, n = m + 1 := ⟨n - 1, by omega⟩
  refine ⟨?_, ?_, rfl⟩
  all_goals
    show (genFrBytesAux (m + 1) fixedSeedRng).take 32 = _
    rw [genFrBytesAux]
    rw [show (32 : Nat) = (fr_into_bytes (fixedSeedRng.genFr).1).length from
      (length_fr_into_bytes _).symm]
    rw [List.take_left]
    rfl

theorem buffer_prefix_is_replica_id_serialization_witness :
    (file_backed_mmap_from_random_bytes 32).take 32 = fr_into_bytes replica_id
    ∧ (file_backed_mmap_from_random_bytes_enc 32).take 32
        = fr_into_bytes encoding_replica_id_fr
    ∧ encoding_replica_id = HybridDomain.Alpha encoding_replica_id_fr :=
  buffer_prefix_is_replica_id_serialization 32 (by decide)

/-- C10: the encoding benchmark's setup parameters always carry exactly
one layer with a fixed one-challenge-per-layer policy and a single zero
beta height, for all operator-supplied inputs, and the operator-facing
layer-count argument is accepted but never read: runs differing only in
it are identical. -/
theorem encoding_setup_single_layer_ignores_layer_arg
    (size_kb m expansion_degree l1 l2 graph_seed : Nat) :
    (encoding_main size_kb m expansion_degree l1 graph_seed).sp.layer_challenges
        = LayerChallenges.new_fixed 1 1
    ∧ (encoding_main size_kb m expansion_degree l1 graph_seed).sp.layer_challenges.layers = 1
    ∧ (encoding_main size_kb m expansion_degree l1 graph_seed).sp.layer_challenges.count = 1
    ∧ (encoding_main size_kb m expansion_degree l1 graph_seed).sp.beta_heights = [0]
    ∧ encoding_main size_kb m expansion_degree l1 graph_seed
        = encoding_main size_kb m expansion_degree l2 graph_seed :=
  ⟨rfl, rfl, rfl, rfl, rfl⟩

end FilProofsBench
